import Mathlib

/-!
# Verification of the company-performance service core

Shallow embedding of the core pure logic of the repository:

* `src/processors/financial-processor.ts` — quarterly reconstruction of
  standalone values from cumulative fiscal filings, QoQ metric changes,
  and the tiered Korean currency formatter;
* `src/cache/cache-manager.ts` (SWR variant) — two-tier cache state,
  `get`/`set`/`getEntry`, `getCacheStatus`, `getWithSWR`, and the
  single-flight background-revalidation guard;
* `src/services/search-service.ts` — relevance scoring and search.

Filed monetary amounts are whole-KRW integers and the reconstruction
engine only subtracts and compares them, so they are modelled as `ℤ`;
the QoQ calculator and the currency formatter, which divide, work over
`ℚ`, where every operation on the modelled inputs is exact.
`Date.now()` instants and durations are rationals in milliseconds.  JS
`Math.round` (round half toward +∞) is modelled by `jsRound`.
-/

namespace CompanyPerf

/-- JS `Math.round`: round to nearest, ties toward +∞ (`⌊x + 1/2⌋`). -/
def jsRound (x : ℚ) : ℤ := Int.floor (x + 1/2)

/-- Round half away from zero (what the spec claims for metric changes). -/
def roundHalfAwayFromZero (x : ℚ) : ℤ :=
  if x < 0 then -Int.floor (-x + 1/2) else Int.floor (x + 1/2)

/-- JS `Array.prototype.map((v, i) => ...)` with the running index. -/
def jsMapIdx (f : ℕ → α → β) : ℕ → List α → List β
  | _, [] => []
  | i, a :: as => f i a :: jsMapIdx f (i + 1) as

/-- Stable sort by a JS-style comparator (`cmp x y < 0` means `x`
before `y`).  `sortByCmp` sorts the tail first and inserts the head
before the first element `y` with `cmp x y ≤ 0`, so an earlier element
precedes all its comparator-ties — the stable order the ECMAScript
`Array.prototype.sort` guarantees for a consistent comparator. -/
def insertByCmp (cmp : α → α → ℤ) (x : α) : List α → List α
  | [] => [x]
  | y :: ys => if cmp x y ≤ 0 then x :: y :: ys else y :: insertByCmp cmp x ys

def sortByCmp (cmp : α → α → ℤ) : List α → List α
  | [] => []
  | x :: xs => insertByCmp cmp x (sortByCmp cmp xs)

/-- Accumulate the value of a decimal digit list. -/
def digitsVal : List Char → ℕ → ℕ
  | [], acc => acc
  | c :: cs, acc => digitsVal cs (acc * 10 + (c.toNat - 48))

/-- Model of JS `parseInt` on canonical (optionally sign-led) decimal
strings, the only year strings the repository produces. -/
def parseIntJS (s : String) : ℤ :=
  match s.data with
  | '-' :: rest => -(digitsVal rest 0 : ℤ)
  | l => (digitsVal l 0 : ℤ)

/-! ## Quarter reconstruction (`financial-processor.ts`) -/

inductive Quarter | Q1 | Q2 | Q3 | Q4
  deriving DecidableEq, BEq, Repr

/-- `quarterOrder` table of `processFinancialData`. -/
def Quarter.ord : Quarter → ℤ
  | .Q1 => 1 | .Q2 => 2 | .Q3 => 3 | .Q4 => 4

structure FinancialStatement where
  year : String
  quarter : Quarter
  revenue : ℤ
  operatingProfit : ℤ
  netIncome : ℤ
  deriving DecidableEq, Repr

structure QuarterPeriod where
  year : String
  quarter : Quarter
  startDate : String
  endDate : String
  deriving DecidableEq, Repr

/-- `createQuarterPeriod` of `financial-processor.ts`. -/
def createQuarterPeriod (year : ℤ) (q : Quarter) : QuarterPeriod :=
  { year := toString year
    quarter := q
    startDate := toString year ++ (match q with
      | .Q1 => "-01-01" | .Q2 => "-04-01" | .Q3 => "-07-01" | .Q4 => "-10-01")
    endDate := toString year ++ (match q with
      | .Q1 => "-03-31" | .Q2 => "-06-30" | .Q3 => "-09-30" | .Q4 => "-12-31") }

structure ProcessedFinancialData where
  quarters : List QuarterPeriod
  revenue : List ℤ
  operatingProfit : List ℤ
  netIncome : List ℤ
  deriving DecidableEq, Repr

/-- The sort comparator of `processFinancialData`: by `parseInt(year)`
difference, then by quarter order. -/
def stmtCmp (a b : FinancialStatement) : ℤ :=
  let yearDiff := parseIntJS a.year - parseIntJS b.year
  if yearDiff ≠ 0 then yearDiff else a.quarter.ord - b.quarter.ord

/-- Lexicographic string comparator modelling the default
`Array.prototype.sort()` applied to `Object.keys(byYear)`. -/
def strCmp (a b : String) : ℤ :=
  match compare a b with
  | .lt => -1 | .eq => 0 | .gt => 1

/-- The per-year body of `processFinancialData`: find the filings for
each quarter and emit standalone values guarded by the revenue gate. -/
def reconstructYear (year : String) (yearData : List FinancialStatement) :
    List FinancialStatement :=
  let q1 := yearData.find? (fun d => d.quarter == Quarter.Q1)
  let q2Cum := yearData.find? (fun d => d.quarter == Quarter.Q2)
  let q3Cum := yearData.find? (fun d => d.quarter == Quarter.Q3)
  let q4Annual := yearData.find? (fun d => d.quarter == Quarter.Q4)
  (match q1 with
   | some q1v =>
     if q1v.revenue > 0 then
       [{ year := year, quarter := Quarter.Q1, revenue := q1v.revenue,
          operatingProfit := q1v.operatingProfit, netIncome := q1v.netIncome }]
     else []
   | none => []) ++
  (match q2Cum, q1 with
   | some q2v, some q1v =>
     if q2v.revenue > 0 then
       let q2Revenue := q2v.revenue - q1v.revenue
       let q2Op := q2v.operatingProfit - q1v.operatingProfit
       let q2Net := q2v.netIncome - q1v.netIncome
       if q2Revenue > 0 then
         [{ year := year, quarter := Quarter.Q2, revenue := q2Revenue,
            operatingProfit := q2Op, netIncome := q2Net }]
       else []
     else []
   | _, _ => []) ++
  (match q3Cum, q2Cum with
   | some q3v, some q2v =>
     if q3v.revenue > 0 then
       let q3Revenue := q3v.revenue - q2v.revenue
       let q3Op := q3v.operatingProfit - q2v.operatingProfit
       let q3Net := q3v.netIncome - q2v.netIncome
       if q3Revenue > 0 then
         [{ year := year, quarter := Quarter.Q3, revenue := q3Revenue,
            operatingProfit := q3Op, netIncome := q3Net }]
       else []
     else []
   | _, _ => []) ++
  (match q4Annual, q3Cum with
   | some q4v, some q3v =>
     if q4v.revenue > 0 then
       let q4Revenue := q4v.revenue - q3v.revenue
       let q4Op := q4v.operatingProfit - q3v.operatingProfit
       let q4Net := q4v.netIncome - q3v.netIncome
       if q4Revenue > 0 then
         [{ year := year, quarter := Quarter.Q4, revenue := q4Revenue,
            operatingProfit := q4Op, netIncome := q4Net }]
       else []
     else []
   | _, _ => [])

/-- `processFinancialData` of `financial-processor.ts`: sort by
`(parseInt(year), quarter)`, group by year (year keys traversed in
string sort order, as `Object.keys(byYear).sort()` yields for the
digit-string years the repository uses), reconstruct each year, and
project the three metric arrays. -/
def processFinancialData (statements : List FinancialStatement) :
    ProcessedFinancialData :=
  let sorted := sortByCmp stmtCmp statements
  let yearKeys := sortByCmp strCmp ((sorted.map (·.year)).eraseDups)
  let quarterlyData :=
    yearKeys.flatMap (fun y => reconstructYear y (sorted.filter (fun s => s.year == y)))
  { quarters := quarterlyData.map (fun s => createQuarterPeriod (parseIntJS s.year) s.quarter)
    revenue := quarterlyData.map (·.revenue)
    operatingProfit := quarterlyData.map (·.operatingProfit)
    netIncome := quarterlyData.map (·.netIncome) }


/-! ## QoQ metric changes and the currency formatter
(`financial-processor.ts`) -/

/-- JS string of the float `n/10` for `n ≥ 0`: `Math.round(value*10)/10`
prints as its shortest round-tripping decimal, i.e. with no decimal
point when `n` is a multiple of 10 and with exactly one decimal digit
otherwise.  The formatter below keeps the integer `Math.round(value*10)`
and renders `rounded = n/10` through this function. -/
def tenthToString (n : ℤ) : String :=
  if n % 10 = 0 then toString (n / 10)
  else toString (n / 10) ++ "." ++ toString (n % 10)

/-- JS string of a whole-number value: the small-magnitude branch of the
formatter interpolates `absAmount` directly; the service only formats
whole-KRW amounts, so the model covers the integral case. -/
def jsIntString (q : ℚ) : String := toString q.num

/-- `formatKoreanCurrency` of `financial-processor.ts`: tiered units
조 (1e12), 억 (1e8), 만 (1e4), each branch showing
`Math.round(magnitude/unit*10)/10`, smaller magnitudes verbatim, the
sign in front. -/
def formatKoreanCurrency (amount : ℚ) : String :=
  let absAmount := |amount|
  let sign := if amount < 0 then "-" else ""
  if absAmount ≥ 1000000000000 then
    sign ++ tenthToString (jsRound (absAmount / 1000000000000 * 10)) ++ "조"
  else if absAmount ≥ 100000000 then
    sign ++ tenthToString (jsRound (absAmount / 100000000 * 10)) ++ "억"
  else if absAmount ≥ 10000 then
    sign ++ tenthToString (jsRound (absAmount / 10000 * 10)) ++ "만"
  else
    sign ++ jsIntString absAmount

structure MetricWithChange where
  value : ℚ
  qoqChange : Option ℚ
  formattedValue : String
  deriving DecidableEq, Repr

/-- `calculateMetricChanges` of `financial-processor.ts`: index 0 (and a
zero predecessor) yields a null change, otherwise
`Math.round(((value-previous)/Math.abs(previous))*100 * 100)/100`. -/
def calculateMetricChanges (values : List ℚ) : List MetricWithChange :=
  jsMapIdx (fun index value =>
    let qoqChange : Option ℚ :=
      if index > 0 then
        match values.get? (index - 1) with
        | some previous =>
          if previous ≠ 0 then
            some ((jsRound ((value - previous) / |previous| * 100 * 100) : ℚ) / 100)
          else none
        | none => none
      else none
    { value := value, qoqChange := qoqChange,
      formattedValue := formatKoreanCurrency value }) 0 values

/-! ## Two-tier SWR cache manager (`cache-manager.ts`, SWR variant) -/

structure CacheEntry (α : Type) where
  data : α
  timestamp : ℚ
  ttl : ℚ
  staleTime : Option ℚ
  deriving DecidableEq, Repr

/-- State of a `KVCacheManager`: the in-process map, the durable KV
store (an external map; its own TTL eviction is not modelled beyond
entry presence), and the single-flight `revalidatingKeys` set. -/
structure CMState (α : Type) where
  mem : String → Option (CacheEntry α)
  kv : String → Option (CacheEntry α)
  revalidating : String → Bool

/-- Point update of a string-keyed map. -/
def storeSet (m : String → Option β) (k : String) (v : β) : String → Option β :=
  fun k2 => if k2 = k then some v else m k2

/-- JS `x || d` for an optional numeric field (`0` is falsy). -/
def jsOrOpt (v : Option ℚ) (d : ℚ) : ℚ :=
  match v with
  | some x => if x = 0 then d else x
  | none => d

/-- JS `x || d` for a numeric field (`0` is falsy). -/
def jsOrQ (x d : ℚ) : ℚ := if x = 0 then d else x

/-- `KVCacheManager.isExpired`. -/
def CacheEntry.isExpired (e : CacheEntry α) (now : ℚ) : Bool :=
  decide (now - e.timestamp > e.ttl)

/-- The durable-tier half of `KVCacheManager.get`: a live KV entry is
repopulated into the in-process tier and returned; an expired or absent
one yields null. -/
def kvLookupLive (st : CMState α) (key : String) (now : ℚ) :
    Option α × CMState α :=
  match st.kv key with
  | some entry =>
    if entry.isExpired now then (none, st)
    else (some entry.data, { st with mem := storeSet st.mem key entry })
  | none => (none, st)

/-- `KVCacheManager.get`: in-process tier first (skipping an expired
entry), then the durable tier via `kvLookupLive`. -/
def CMState.get (st : CMState α) (key : String) (now : ℚ) :
    Option α × CMState α :=
  match st.mem key with
  | some memEntry =>
    if memEntry.isExpired now then kvLookupLive st key now
    else (some memEntry.data, st)
  | none => kvLookupLive st key now

/-- `KVCacheManager.set`: build the entry (`staleTime` in ms, `0` and
omitted both map to absent, per JS `staleTime ? staleTime*1000 :
undefined`) and write it through to both tiers. -/
def CMState.set (st : CMState α) (key : String) (value : α)
    (ttlSeconds : ℚ) (staleTime? : Option ℚ) (now : ℚ) : CMState α :=
  let entry : CacheEntry α :=
    { data := value
      timestamp := now
      ttl := ttlSeconds * 1000
      staleTime := match staleTime? with
        | some s => if s = 0 then none else some (s * 1000)
        | none => none }
  { st with mem := storeSet st.mem key entry, kv := storeSet st.kv key entry }

/-- `KVCacheManager.getEntry`: the in-process entry is returned whenever
present — with no expiry check; only on an in-process miss is the
durable tier consulted, and any entry found there is repopulated and
returned, also without an expiry check. -/
def CMState.getEntry (st : CMState α) (key : String) :
    Option (CacheEntry α) × CMState α :=
  match st.mem key with
  | some memEntry => (some memEntry, st)
  | none =>
    match st.kv key with
    | some entry => (some entry, { st with mem := storeSet st.mem key entry })
    | none => (none, st)

inductive CacheStatus | fresh | stale | expired | missing
  deriving DecidableEq, Repr

/-- The classification body of `KVCacheManager.getCacheStatus` as a pure
function of the entry and the clock. -/
def statusOfEntry (e? : Option (CacheEntry α)) (now : ℚ) : CacheStatus :=
  match e? with
  | none => .missing
  | some entry =>
    let age := now - entry.timestamp
    let staleTime := jsOrOpt entry.staleTime (entry.ttl / 2)
    if age > entry.ttl then .expired
    else if age > staleTime then .stale
    else .fresh

/-- `KVCacheManager.getCacheStatus`: look the entry up via `getEntry`
and classify it. -/
def CMState.getCacheStatus (st : CMState α) (key : String) (now : ℚ) :
    CacheStatus :=
  statusOfEntry (st.getEntry key).1 now

structure SWROptions where
  maxAge : ℚ
  staleTime : ℚ
  deriving DecidableEq, Repr

structure SWRResult (α ε : Type) where
  data : Option α
  isStale : Bool
  isValidating : Bool
  error : Option ε
  deriving DecidableEq, Repr

/-- `KVCacheManager.revalidateInBackground`, run to completion in the
sequential model: guard check, then the fetch (whose outcome the oracle
`fetchR` supplies), `set` on success, nothing on failure; the `finally`
removes the key again, so the net `revalidatingKeys` change is none.
The second component counts fetcher invocations. -/
def revalidateBG (st : CMState α) (key : String) (fetchR : Except ε α)
    (opt : SWROptions) (now : ℚ) : CMState α × ℕ :=
  if st.revalidating key then (st, 0)
  else
    match fetchR with
    | .ok d => (st.set key d opt.maxAge (some opt.staleTime) now, 1)
    | .error _ => (st, 1)

/-- The missing-or-expired tail of `KVCacheManager.getWithSWR`: fetch
synchronously; on success `set` and return fresh; on failure return the
(now-expired) entry as stale data with the error, or null data with the
error when no entry exists. -/
def fetchSync (st : CMState α) (key : String)
    (entry? : Option (CacheEntry α)) (fetchR : Except ε α)
    (opt : SWROptions) (now : ℚ) : SWRResult α ε × CMState α × ℕ :=
  match fetchR with
  | .ok data =>
    ({ data := some data, isStale := false, isValidating := false, error := none },
     st.set key data opt.maxAge (some opt.staleTime) now, 1)
  | .error e =>
    match entry? with
    | some entry =>
      ({ data := some entry.data, isStale := true, isValidating := false,
         error := some e }, st, 1)
    | none =>
      ({ data := none, isStale := false, isValidating := false,
         error := some e }, st, 1)

/-- `KVCacheManager.getWithSWR` in the sequential (single logical
request) model: read through `getEntry`, serve a non-expired entry
immediately (launching a background revalidation when stale and no
revalidation is in flight), otherwise fetch synchronously via
`fetchSync`.  Returns the result, the final state, and the number of
fetcher invocations. -/
def CMState.getWithSWR (st : CMState α) (key : String)
    (fetchR : Except ε α) (opt : SWROptions) (now : ℚ) :
    SWRResult α ε × CMState α × ℕ :=
  let lookup := st.getEntry key
  let st1 := lookup.2
  match lookup.1 with
  | some entry =>
    let age := now - entry.timestamp
    let staleTime := jsOrOpt entry.staleTime (opt.staleTime * 1000)
    let maxAge := jsOrQ entry.ttl (opt.maxAge * 1000)
    let isStale := decide (age > staleTime)
    let isExpired := decide (age > maxAge)
    if isExpired then fetchSync st1 key (some entry) fetchR opt now
    else
      let result : SWRResult α ε :=
        { data := some entry.data, isStale := isStale,
          isValidating := isStale && !(st1.revalidating key), error := none }
      if isStale && !(st1.revalidating key) then
        let bg := revalidateBG st1 key fetchR opt now
        (result, bg.1, bg.2)
      else (result, st1, 0)
  | none => fetchSync st1 key none fetchR opt now

/-! ### Concurrent interleaving model for the single-flight guard

The runtime is a single-threaded event loop: code between two
suspension points (`await`s) runs atomically.  In `getWithSWR`, the
stretch from resuming after `await getEntry` through building the
result, checking `revalidatingKeys`, and — inside
`revalidateInBackground`, which runs synchronously up to `await
fetcher()` — re-checking the guard and adding the key, contains no
suspension point: the guard is checked and set atomically.
`swrCallStart` is that atomic stretch of one caller; with the key
already in the in-process map, `await getEntry` touches no shared state
either, so one caller's whole pre-fetch execution is a single step. -/

/-- A cache-manager state together with the number of fetcher
invocations issued so far. -/
structure ConcState (α : Type) where
  cm : CMState α
  fetchCalls : ℕ

/-- One concurrent `getWithSWR` caller's execution up to its first
suspension inside the fetcher.  `some result` means the call already
returned (non-expired entry served from cache); `none` means the caller
is now awaiting its synchronous fetch (missing/expired path).  A
launched background revalidation marks the key in `revalidatingKeys`
and issues its fetch before any suspension. -/
def swrCallStart (key : String) (opt : SWROptions) (now : ℚ)
    (s : ConcState α) : Option (SWRResult α ε) × ConcState α :=
  let lookup := s.cm.getEntry key
  let st1 := lookup.2
  match lookup.1 with
  | some entry =>
    let age := now - entry.timestamp
    let staleTime := jsOrOpt entry.staleTime (opt.staleTime * 1000)
    let maxAge := jsOrQ entry.ttl (opt.maxAge * 1000)
    let isStale := decide (age > staleTime)
    if decide (age > maxAge) then
      (none, { cm := st1, fetchCalls := s.fetchCalls + 1 })
    else
      let result : SWRResult α ε :=
        { data := some entry.data, isStale := isStale,
          isValidating := isStale && !(st1.revalidating key), error := none }
      if isStale && !(st1.revalidating key) then
        (some result,
         { cm := { st1 with
             revalidating := fun k => if k = key then true else st1.revalidating k },
           fetchCalls := s.fetchCalls + 1 })
      else (some result, { cm := st1, fetchCalls := s.fetchCalls })
  | none => (none, { cm := st1, fetchCalls := s.fetchCalls + 1 })

/-- `n` concurrent `getWithSWR` callers, each executing its atomic
pre-fetch stretch in turn (atomic steps make every interleaving a
sequence), before any in-flight fetch completes. -/
def runCallers (key : String) (opt : SWROptions) (now : ℚ) :
    ℕ → ConcState α → List (Option (SWRResult α ε)) × ConcState α
  | 0, s => ([], s)
  | n + 1, s =>
    let step := swrCallStart key opt now s
    let rest := runCallers key opt now n step.2
    (step.1 :: rest.1, rest.2)

/-! ## Search service (`search-service.ts`) -/

structure Company where
  corpCode : String
  corpName : String
  stockCode : String
  market : String
  deriving DecidableEq, Repr

/-- Character-list test: does the second list start with the first? -/
def listStarts : List Char → List Char → Bool
  | [], _ => true
  | _ :: _, [] => false
  | p :: ps, c :: cs => p == c && listStarts ps cs

/-- Character-list test: does the list contain the first list as a
contiguous segment? -/
def containsSeg (pat : List Char) : List Char → Bool
  | [] => listStarts pat []
  | c :: tail => listStarts pat (c :: tail) || containsSeg pat tail

/-- JS `String.prototype.startsWith`. -/
def strStartsWith (s pat : String) : Bool := listStarts pat.data s.data

/-- JS `String.prototype.includes`. -/
def strIncludes (s pat : String) : Bool := containsSeg pat.data s.data

/-- JS `String.prototype.toLowerCase`, modelled characterwise. -/
def jsToLower (s : String) : String := String.mk (s.data.map Char.toLower)

def isJsSpace (c : Char) : Bool := c == ' ' || c == '\t' || c == '\n' || c == '\r'

/-- JS `String.prototype.trim` (over the whitespace the repository's
inputs can contain). -/
def jsTrim (s : String) : String :=
  String.mk (((s.data.dropWhile isJsSpace).reverse.dropWhile isJsSpace).reverse)

/-- The `indexOf` loop of `SearchService.fuzzyMatch`: every query
character appears in the text, in order. -/
def fuzzyMatchAux : List Char → List Char → Bool
  | _, [] => true
  | [], _ :: _ => false
  | t :: ts, c :: qs => if t == c then fuzzyMatchAux ts qs else fuzzyMatchAux ts (c :: qs)

/-- `SearchService.fuzzyMatch`. -/
def fuzzyMatch (text query : String) : Bool := fuzzyMatchAux text.data query.data

/-- `SearchService.calculateRelevanceScore`, in the source's rule
order: name exact, name starts-with, name contains, ticker exact,
ticker starts-with, fuzzy, else 0. -/
def calculateRelevanceScore (company : Company) (query : String) : ℕ :=
  let name := jsToLower company.corpName
  let stockCode := jsToLower company.stockCode
  if name = query then 100
  else if strStartsWith name query then 80
  else if strIncludes name query then 60
  else if stockCode = query then 70
  else if strStartsWith stockCode query then 50
  else if fuzzyMatch name query then 40
  else 0

/-- The rule order claim C9 states: the single best-scoring matching
rule wins, so ticker-exact (70) is checked before name-contains (60). -/
def claimScore (company : Company) (query : String) : ℕ :=
  let name := jsToLower company.corpName
  let stockCode := jsToLower company.stockCode
  if name = query then 100
  else if strStartsWith name query then 80
  else if stockCode = query then 70
  else if strIncludes name query then 60
  else if strStartsWith stockCode query then 50
  else if fuzzyMatch name query then 40
  else 0

/-- `SearchService.search`: guard (index initialized, raw query length
at least 2 — an empty query is also falsy in JS, which the length guard
subsumes), normalize, score, drop zero scores, stable-sort by
descending score, truncate, project. -/
def searchCompanies (companies : List Company) (initialized : Bool)
    (query : String) (limit : ℕ) : List Company :=
  if !initialized || query.length < 2 then []
  else
    let normalizedQuery := jsTrim (jsToLower query)
    let scored :=
      ((companies.map (fun c => (c, calculateRelevanceScore c normalizedQuery))).filter
        (fun item => item.2 > 0))
    let sorted := sortByCmp (fun a b => (b.2 : ℤ) - (a.2 : ℤ)) scored
    (sorted.take limit).map (·.1)

/-- The entry lookup C6 claims `getWithSWR` performs: the same two-tier
rule as `get`, at entry level — skip an expired in-process entry,
consult the durable tier, and use a live durable entry, repopulating
the in-process tier. -/
def claimTwoTierEntry (st : CMState α) (key : String) (now : ℚ) :
    Option (CacheEntry α) × CMState α :=
  match st.mem key with
  | some memEntry =>
    if memEntry.isExpired now then
      match st.kv key with
      | some entry =>
        if entry.isExpired now then (none, st)
        else (some entry, { st with mem := storeSet st.mem key entry })
      | none => (none, st)
    else (some memEntry, st)
  | none =>
    match st.kv key with
    | some entry =>
      if entry.isExpired now then (none, st)
      else (some entry, { st with mem := storeSet st.mem key entry })
    | none => (none, st)

end CompanyPerf

/-! # Theorems -/

namespace CompanyPerf

theorem jsMapIdx_get? (f : ℕ → α → β) :
    ∀ (l : List α) (i n : ℕ), (jsMapIdx f i l).get? n = (l.get? n).map (f (i + n))
  | [], i, n => by simp [jsMapIdx]
  | a :: as, i, 0 => by simp [jsMapIdx]
  | a :: as, i, n + 1 => by
    have h := jsMapIdx_get? f as (i + 1) n
    simp only [jsMapIdx, List.get?_cons_succ, h]
    have h2 : i + 1 + n = i + (n + 1) := by omega
    rw [h2]

theorem jsMapIdx_length (f : ℕ → α → β) :
    ∀ (l : List α) (i : ℕ), (jsMapIdx f i l).length = l.length
  | [], _ => rfl
  | a :: as, i => by simp [jsMapIdx, jsMapIdx_length f as (i + 1)]

/-- C1: for one fiscal year filed as P1 standalone, P2/P3 cumulative and
P4 annual (given here out of order, so the sort by `(year, quarter)` is
exercised), the reconstruction subtracts each preceding cumulative
period and emits the standalone quarters in ascending chronological
order; with revenues 100/250/420/600 this yields [100, 150, 170, 180]
(see the witness). -/
theorem processFinancialData_single_year
    (r1 r2 r3 r4 o1 o2 o3 o4 n1 n2 n3 n4 : ℤ)
    (h1 : r1 > 0) (h2 : r2 > 0) (h21 : r2 - r1 > 0)
    (h3 : r3 > 0) (h32 : r3 - r2 > 0) (h4 : r4 > 0) (h43 : r4 - r3 > 0) :
    processFinancialData
      [⟨"2023", .Q2, r2, o2, n2⟩, ⟨"2023", .Q4, r4, o4, n4⟩,
       ⟨"2023", .Q1, r1, o1, n1⟩, ⟨"2023", .Q3, r3, o3, n3⟩] =
    { quarters := [createQuarterPeriod 2023 .Q1, createQuarterPeriod 2023 .Q2,
                   createQuarterPeriod 2023 .Q3, createQuarterPeriod 2023 .Q4],
      revenue := [r1, r2 - r1, r3 - r2, r4 - r3],
      operatingProfit := [o1, o2 - o1, o3 - o2, o4 - o3],
      netIncome := [n1, n2 - n1, n3 - n2, n4 - n3] } := by
  have hmain : processFinancialData
      [⟨"2023", .Q2, r2, o2, n2⟩, ⟨"2023", .Q4, r4, o4, n4⟩,
       ⟨"2023", .Q1, r1, o1, n1⟩, ⟨"2023", .Q3, r3, o3, n3⟩] =
      { quarters := (reconstructYear "2023"
          [⟨"2023", .Q1, r1, o1, n1⟩, ⟨"2023", .Q2, r2, o2, n2⟩,
           ⟨"2023", .Q3, r3, o3, n3⟩, ⟨"2023", .Q4, r4, o4, n4⟩] ++ []).map
            (fun (s : FinancialStatement) => createQuarterPeriod (parseIntJS s.year) s.quarter)
        revenue := (reconstructYear "2023"
          [⟨"2023", .Q1, r1, o1, n1⟩, ⟨"2023", .Q2, r2, o2, n2⟩,
           ⟨"2023", .Q3, r3, o3, n3⟩, ⟨"2023", .Q4, r4, o4, n4⟩] ++ []).map (fun (s : FinancialStatement) => s.revenue)
        operatingProfit := (reconstructYear "2023"
          [⟨"2023", .Q1, r1, o1, n1⟩, ⟨"2023", .Q2, r2, o2, n2⟩,
           ⟨"2023", .Q3, r3, o3, n3⟩, ⟨"2023", .Q4, r4, o4, n4⟩] ++ []).map (fun (s : FinancialStatement) => s.operatingProfit)
        netIncome := (reconstructYear "2023"
          [⟨"2023", .Q1, r1, o1, n1⟩, ⟨"2023", .Q2, r2, o2, n2⟩,
           ⟨"2023", .Q3, r3, o3, n3⟩, ⟨"2023", .Q4, r4, o4, n4⟩] ++ []).map (fun (s : FinancialStatement) => s.netIncome) } := rfl
  have hrec : reconstructYear "2023"
      [⟨"2023", .Q1, r1, o1, n1⟩, ⟨"2023", .Q2, r2, o2, n2⟩,
       ⟨"2023", .Q3, r3, o3, n3⟩, ⟨"2023", .Q4, r4, o4, n4⟩]
      = (((if r1 > 0 then [⟨"2023", .Q1, r1, o1, n1⟩] else []) ++
          (if r2 > 0 then
            if r2 - r1 > 0 then [⟨"2023", .Q2, r2 - r1, o2 - o1, n2 - n1⟩] else []
          else [])) ++
          (if r3 > 0 then
             if r3 - r2 > 0 then [⟨"2023", .Q3, r3 - r2, o3 - o2, n3 - n2⟩] else []
           else [])) ++
          (if r4 > 0 then
             if r4 - r3 > 0 then [⟨"2023", .Q4, r4 - r3, o4 - o3, n4 - n3⟩] else []
           else []) := rfl
  rw [hmain, hrec, if_pos h1, if_pos h2, if_pos h21, if_pos h3, if_pos h32,
      if_pos h4, if_pos h43]
  simp [show parseIntJS "2023" = 2023 from by decide]

/-- Witness for C1 at the spec's concrete inputs: revenues
P1=100, P2cum=250, P3cum=420, P4annual=600 reconstruct to
[100, 150, 170, 180]. -/
theorem processFinancialData_single_year_witness :
    processFinancialData
      [⟨"2023", .Q2, 250, 20, 10⟩, ⟨"2023", .Q4, 600, 40, 20⟩,
       ⟨"2023", .Q1, 100, 10, 5⟩, ⟨"2023", .Q3, 420, 30, 15⟩] =
    { quarters := [createQuarterPeriod 2023 .Q1, createQuarterPeriod 2023 .Q2,
                   createQuarterPeriod 2023 .Q3, createQuarterPeriod 2023 .Q4],
      revenue := [100, 150, 170, 180],
      operatingProfit := [10, 10, 10, 10],
      netIncome := [5, 5, 5, 5] } := by
  have h := processFinancialData_single_year 100 250 420 600 10 20 30 40 5 10 15 20
    (by decide) (by decide) (by decide) (by decide) (by decide) (by decide) (by decide)
  exact h

/-- C5: the inclusion gate is evaluated on revenue only and a derived
period is kept or dropped wholesale.  First conjunct: with only P1 and
P3-cumulative filed (no P2), only P1 appears — P3's revenue, operating
profit and net income are all dropped, whatever their values.  Second
conjunct: when the derived P2 revenue fails the positive gate, P2 is
dropped as a unit, with no condition on its operating profit or net
income; neither conjunct constrains any operating-profit or net-income
value, so the gate never looks at them. -/
theorem reconstruction_gate_on_revenue_only
    (r1 o1 n1 r2 o2 n2 r3 o3 n3 : ℤ)
    (h1 : r1 > 0) (h2 : r2 > 0) (h21 : ¬ (r2 - r1 > 0)) :
    (processFinancialData [⟨"2023", .Q1, r1, o1, n1⟩, ⟨"2023", .Q3, r3, o3, n3⟩] =
      { quarters := [createQuarterPeriod 2023 .Q1], revenue := [r1],
        operatingProfit := [o1], netIncome := [n1] }) ∧
    (processFinancialData [⟨"2023", .Q1, r1, o1, n1⟩, ⟨"2023", .Q2, r2, o2, n2⟩] =
      { quarters := [createQuarterPeriod 2023 .Q1], revenue := [r1],
        operatingProfit := [o1], netIncome := [n1] }) := by
  constructor
  · have hmain : processFinancialData
        [⟨"2023", .Q1, r1, o1, n1⟩, ⟨"2023", .Q3, r3, o3, n3⟩] =
        { quarters := (reconstructYear "2023"
            [⟨"2023", .Q1, r1, o1, n1⟩, ⟨"2023", .Q3, r3, o3, n3⟩] ++ []).map
              (fun (s : FinancialStatement) => createQuarterPeriod (parseIntJS s.year) s.quarter)
          revenue := (reconstructYear "2023"
            [⟨"2023", .Q1, r1, o1, n1⟩, ⟨"2023", .Q3, r3, o3, n3⟩] ++ []).map
              (fun (s : FinancialStatement) => s.revenue)
          operatingProfit := (reconstructYear "2023"
            [⟨"2023", .Q1, r1, o1, n1⟩, ⟨"2023", .Q3, r3, o3, n3⟩] ++ []).map
              (fun (s : FinancialStatement) => s.operatingProfit)
          netIncome := (reconstructYear "2023"
            [⟨"2023", .Q1, r1, o1, n1⟩, ⟨"2023", .Q3, r3, o3, n3⟩] ++ []).map
              (fun (s : FinancialStatement) => s.netIncome) } := rfl
    have hrec : reconstructYear "2023"
        [⟨"2023", .Q1, r1, o1, n1⟩, ⟨"2023", .Q3, r3, o3, n3⟩]
        = (((if r1 > 0 then [⟨"2023", .Q1, r1, o1, n1⟩] else []) ++ []) ++ []) ++ [] := rfl
    rw [hmain, hrec, if_pos h1]
    simp [show parseIntJS "2023" = 2023 from by decide]
  · have hmain : processFinancialData
        [⟨"2023", .Q1, r1, o1, n1⟩, ⟨"2023", .Q2, r2, o2, n2⟩] =
        { quarters := (reconstructYear "2023"
            [⟨"2023", .Q1, r1, o1, n1⟩, ⟨"2023", .Q2, r2, o2, n2⟩] ++ []).map
              (fun (s : FinancialStatement) => createQuarterPeriod (parseIntJS s.year) s.quarter)
          revenue := (reconstructYear "2023"
            [⟨"2023", .Q1, r1, o1, n1⟩, ⟨"2023", .Q2, r2, o2, n2⟩] ++ []).map
              (fun (s : FinancialStatement) => s.revenue)
          operatingProfit := (reconstructYear "2023"
            [⟨"2023", .Q1, r1, o1, n1⟩, ⟨"2023", .Q2, r2, o2, n2⟩] ++ []).map
              (fun (s : FinancialStatement) => s.operatingProfit)
          netIncome := (reconstructYear "2023"
            [⟨"2023", .Q1, r1, o1, n1⟩, ⟨"2023", .Q2, r2, o2, n2⟩] ++ []).map
              (fun (s : FinancialStatement) => s.netIncome) } := rfl
    have hrec : reconstructYear "2023"
        [⟨"2023", .Q1, r1, o1, n1⟩, ⟨"2023", .Q2, r2, o2, n2⟩]
        = (((if r1 > 0 then [⟨"2023", .Q1, r1, o1, n1⟩] else []) ++
            (if r2 > 0 then
              if r2 - r1 > 0 then [⟨"2023", .Q2, r2 - r1, o2 - o1, n2 - n1⟩] else []
            else [])) ++ []) ++ [] := rfl
    rw [hmain, hrec, if_pos h1, if_pos h2, if_neg h21]
    simp [show parseIntJS "2023" = 2023 from by decide]

/-- Witness for C5: revenues P1=100, P3cum=420 (P2 missing) keep only
P1; and P1=100, P2cum=90 (derived P2 = -10 ≤ 0) also keep only P1,
dropping P2's positive operating profit with it. -/
theorem reconstruction_gate_on_revenue_only_witness :
    (processFinancialData [⟨"2023", .Q1, 100, 10, 5⟩, ⟨"2023", .Q3, 420, 30, 15⟩] =
      { quarters := [createQuarterPeriod 2023 .Q1], revenue := [100],
        operatingProfit := [10], netIncome := [5] }) ∧
    (processFinancialData [⟨"2023", .Q1, 100, 10, 5⟩, ⟨"2023", .Q2, 90, 50, 25⟩] =
      { quarters := [createQuarterPeriod 2023 .Q1], revenue := [100],
        operatingProfit := [10], netIncome := [5] }) :=
  reconstruction_gate_on_revenue_only 100 10 5 90 50 25 420 30 15
    (by decide) (by decide) (by decide)

/-- C7 counterexample: at values [32, 31] the change is
(31-32)/32*100 = -3.125 %, whose hundredfold -312.5 JS-rounds to -312
(`Math.round` sends ties toward +∞), giving -3.12; rounding half away
from zero, as the claim states, would give -313, i.e. -3.13.  Every
float operation at these inputs is exact (32 = 2^5), so the rational
model matches the JS computation bit for bit. -/
theorem calculateMetricChanges_tie_counterexample :
    ((calculateMetricChanges [32, 31]).map (fun m => m.qoqChange)
      = [none, some (-312/100)]) ∧
    ((roundHalfAwayFromZero ((31 - 32) / |(32:ℚ)| * 100 * 100) : ℚ) / 100 = -313/100) ∧
    ((-312/100 : ℚ) ≠ -313/100) := by
  refine ⟨?_, by norm_num [roundHalfAwayFromZero], by norm_num⟩
  norm_num [calculateMetricChanges, jsMapIdx, jsRound]

/-- C7 amended: the change list is index-aligned with the values; the
entry at index 0 has a null change, as does any entry whose predecessor
is 0; otherwise the change is ((values[i]-values[i-1])/|values[i-1]|)*100
rounded at the 2nd decimal by JS `Math.round` (ties toward +∞, not away
from zero); in particular [100, 150, 120] yields [null, +50, -20]. -/
theorem calculateMetricChanges_qoq (values : List ℚ) :
    ((calculateMetricChanges values).length = values.length) ∧
    (∀ m, (calculateMetricChanges values).get? 0 = some m → m.qoqChange = none) ∧
    (∀ (i : ℕ) (p v : ℚ), values.get? i = some p → values.get? (i + 1) = some v →
      ((calculateMetricChanges values).get? (i + 1)).map (fun m => m.qoqChange) =
        some (if p = 0 then none
              else some ((jsRound ((v - p) / |p| * 100 * 100) : ℚ) / 100))) ∧
    ((calculateMetricChanges [100, 150, 120]).map (fun m => m.qoqChange)
      = [none, some 50, some (-20)]) := by
  refine ⟨jsMapIdx_length _ values 0, ?_, ?_, ?_⟩
  · intro m hm
    rw [calculateMetricChanges, jsMapIdx_get?] at hm
    cases hv : values.get? 0 with
    | none => rw [hv] at hm; exact absurd hm (by simp)
    | some v =>
      rw [hv] at hm
      simp only [Option.map_some] at hm
      cases hm
      rfl
  · intro i p v hp hv
    rw [calculateMetricChanges, jsMapIdx_get?, hv]
    simp only [Option.map_some, Nat.zero_add, Nat.add_sub_cancel, hp]
    by_cases hp0 : p = 0
    · simp [hp0]
    · simp [hp0]
  · norm_num [calculateMetricChanges, jsMapIdx, jsRound]

/-- Witness for C7 amended, at values [100, 150, 120] and index 2:
predecessor 150 is nonzero and the change is -20. -/
theorem calculateMetricChanges_qoq_witness :
    ((calculateMetricChanges [100, 150, 120]).get? 2).map (fun m => m.qoqChange) =
      some (if (150:ℚ) = 0 then none
            else some ((jsRound (((120:ℚ) - 150) / |(150:ℚ)| * 100 * 100) : ℚ) / 100)) :=
  (calculateMetricChanges_qoq [100, 150, 120]).2.2.1 1 150 120 rfl rfl

theorem empty_append_str (s : String) : "" ++ s = s := rfl

/-- C8 counterexample: 500,000,000 / 1e8 = 5 exactly, and the JS number
5 prints as "5", so the formatter yields "5억" — not "5.0억", as the
claim's "shown to 1 decimal place" wording and its "5.0" example
state. -/
theorem formatKoreanCurrency_whole_counterexample :
    formatKoreanCurrency 500000000 = "5억" ∧ "5억" ≠ "5.0억" := by
  constructor
  · norm_num [formatKoreanCurrency]
    rw [show jsRound (50:ℚ) = 50 from by norm_num [jsRound]]
    decide
  · decide

/-- C8 amended: the tier thresholds and divisors are as claimed
(≥ 1e12 → 조, ≥ 1e8 → 억, ≥ 1e4 → 만, the sign in front), but each
tier shows at most one decimal place: a whole-number magnitude prints
with no decimal point, so 500,000,000 formats as "5억", not "5.0억";
sub-1e4 whole amounts print unchanged. -/
theorem formatKoreanCurrency_tiers :
    formatKoreanCurrency 1234000000000 = "1.2조" ∧
    formatKoreanCurrency 500000000 = "5억" ∧
    formatKoreanCurrency 15000 = "1.5만" ∧
    formatKoreanCurrency 500 = "500" ∧
    formatKoreanCurrency (-1234000000000) = "-1.2조" ∧
    (∀ n : ℤ, 0 ≤ n → (n : ℚ) < 10000 → formatKoreanCurrency (n : ℚ) = toString n) := by
  refine ⟨?_, ?_, ?_, ?_, ?_, ?_⟩
  · norm_num [formatKoreanCurrency]
    rw [show jsRound ((617:ℚ)/50) = 12 from by norm_num [jsRound]]
    decide
  · norm_num [formatKoreanCurrency]
    rw [show jsRound (50:ℚ) = 50 from by norm_num [jsRound]]
    decide
  · norm_num [formatKoreanCurrency]
    rw [show jsRound (15:ℚ) = 15 from by norm_num [jsRound]]
    decide
  · norm_num [formatKoreanCurrency, jsIntString]
    decide
  · norm_num [formatKoreanCurrency]
    rw [show jsRound ((617:ℚ)/50) = 12 from by norm_num [jsRound]]
    decide
  · intro n hn hlt
    have habs : |(n:ℚ)| = (n:ℚ) := abs_of_nonneg (by exact_mod_cast hn)
    have hc1 : ¬ (|(n:ℚ)| ≥ 1000000000000) := by rw [habs]; linarith
    have hc2 : ¬ (|(n:ℚ)| ≥ 100000000) := by rw [habs]; linarith
    have hc3 : ¬ (|(n:ℚ)| ≥ 10000) := by rw [habs]; linarith
    have hsign : ¬ ((n:ℚ) < 0) := not_lt.mpr (by exact_mod_cast hn)
    simp only [formatKoreanCurrency, hc1, hc2, hc3, hsign, if_false, ite_false, jsIntString]
    rw [habs, Rat.num_intCast, empty_append_str]

/-- Witness for C8 amended at n = 500: a sub-1e4 whole amount prints
unchanged. -/
theorem formatKoreanCurrency_tiers_witness :
    formatKoreanCurrency ((500:ℤ) : ℚ) = toString (500:ℤ) :=
  formatKoreanCurrency_tiers.2.2.2.2.2 500 (by decide) (by norm_num)

/-- Case analysis of the status classification, shared by the
cache-status theorems. -/
theorem statusOfEntry_iff (e : CacheEntry α) (now : ℚ) :
    (statusOfEntry (some e) now = CacheStatus.fresh ↔
      now - e.timestamp ≤ e.ttl ∧ now - e.timestamp ≤ jsOrOpt e.staleTime (e.ttl / 2)) ∧
    (statusOfEntry (some e) now = CacheStatus.stale ↔
      jsOrOpt e.staleTime (e.ttl / 2) < now - e.timestamp ∧ now - e.timestamp ≤ e.ttl) ∧
    (statusOfEntry (some e) now = CacheStatus.expired ↔ e.ttl < now - e.timestamp) := by
  simp only [statusOfEntry]
  by_cases h1 : now - e.timestamp > e.ttl
  · rw [if_pos h1]
    exact ⟨⟨fun h => CacheStatus.noConfusion h, fun h => absurd h1 (not_lt.mpr h.1)⟩,
           ⟨fun h => CacheStatus.noConfusion h, fun h => absurd h1 (not_lt.mpr h.2)⟩,
           ⟨fun _ => h1, fun _ => rfl⟩⟩
  · rw [if_neg h1]
    by_cases h2 : now - e.timestamp > jsOrOpt e.staleTime (e.ttl / 2)
    · rw [if_pos h2]
      exact ⟨⟨fun h => CacheStatus.noConfusion h, fun h => absurd h2 (not_lt.mpr h.2)⟩,
             ⟨fun _ => ⟨h2, not_lt.mp h1⟩, fun _ => rfl⟩,
             ⟨fun h => CacheStatus.noConfusion h, fun h => absurd h h1⟩⟩
    · rw [if_neg h2]
      exact ⟨⟨fun _ => ⟨not_lt.mp h1, not_lt.mp h2⟩, fun _ => rfl⟩,
             ⟨fun h => CacheStatus.noConfusion h, fun h => absurd h.1 h2⟩,
             ⟨fun h => CacheStatus.noConfusion h, fun h => absurd h h1⟩⟩

/-- C2 counterexample: an entry with ttl 10 ms and explicit staleTime
20 ms, read at age 15 ms, satisfies age ≤ staleTime, yet getCacheStatus
reports expired (the code tests age > ttl first), so "fresh iff
age ≤ staleTime" fails when staleTime exceeds ttl. -/
theorem getCacheStatus_fresh_iff_counterexample :
    (CMState.getCacheStatus
      { mem := fun k => if k = "k" then
          some { data := (0:ℕ), timestamp := 0, ttl := 10, staleTime := some 20 } else none,
        kv := fun _ => none, revalidating := fun _ => false } "k" 15
      = CacheStatus.expired) ∧
    ((15:ℚ) - 0 ≤ 20) ∧
    (CMState.getCacheStatus
      { mem := fun k => if k = "k" then
          some { data := (0:ℕ), timestamp := 0, ttl := 10, staleTime := some 20 } else none,
        kv := fun _ => none, revalidating := fun _ => false } "k" 15
      ≠ CacheStatus.fresh) := by
  refine ⟨?_, by norm_num, ?_⟩ <;>
    (norm_num [CMState.getCacheStatus, CMState.getEntry, statusOfEntry, jsOrOpt]; try decide)

/-- C2 amended: with the effective stale time (the explicit staleTime
if present and nonzero, else ttl/2), the classification satisfies:
fresh ⟺ age ≤ ttl and age ≤ staleTime (the claim's "fresh ⟺ age ≤
staleTime" needs the extra age ≤ ttl conjunct, because expiry is
checked first); stale ⟺ staleTime < age ≤ ttl; expired ⟺ age > ttl;
missing ⟺ no entry in either tier; and the statuses are mutually
exclusive and exhaustive (the classifier is a total function into the
four statuses, and a present entry is never "missing"). -/
theorem getCacheStatus_classification (e : CacheEntry ℕ) (now : ℚ)
    (st : CMState ℕ) (key : String) :
    (statusOfEntry (some e) now = CacheStatus.fresh ↔
      now - e.timestamp ≤ e.ttl ∧ now - e.timestamp ≤ jsOrOpt e.staleTime (e.ttl / 2)) ∧
    (statusOfEntry (some e) now = CacheStatus.stale ↔
      jsOrOpt e.staleTime (e.ttl / 2) < now - e.timestamp ∧ now - e.timestamp ≤ e.ttl) ∧
    (statusOfEntry (some e) now = CacheStatus.expired ↔ e.ttl < now - e.timestamp) ∧
    (statusOfEntry (none : Option (CacheEntry ℕ)) now = CacheStatus.missing) ∧
    (statusOfEntry (some e) now ≠ CacheStatus.missing) ∧
    (st.getCacheStatus key now = CacheStatus.missing ↔
      st.mem key = none ∧ st.kv key = none) := by
  obtain ⟨hf, hs, he⟩ := statusOfEntry_iff e now
  refine ⟨hf, hs, he, rfl, ?_, ?_⟩
  · simp only [statusOfEntry]
    split_ifs <;> simp
  · cases hm : st.mem key with
    | some e2 =>
      have : statusOfEntry (some e2) now ≠ CacheStatus.missing := by
        simp only [statusOfEntry]; split_ifs <;> simp
      simp [CMState.getCacheStatus, CMState.getEntry, hm, this]
    | none =>
      cases hk : st.kv key with
      | some e2 =>
        have : statusOfEntry (some e2) now ≠ CacheStatus.missing := by
          simp only [statusOfEntry]; split_ifs <;> simp
        simp [CMState.getCacheStatus, CMState.getEntry, hm, hk, this]
      | none =>
        simp [CMState.getCacheStatus, CMState.getEntry, hm, hk, statusOfEntry]

/-- C10: an entry stored without an explicit staleTime (the `set` model
stores `staleTime = none` both when the argument is omitted and when it
is the falsy 0) is classified with the implicit stale boundary ttl/2:
fresh while age ≤ ttl/2, stale while ttl/2 < age ≤ ttl. -/
theorem getCacheStatus_default_staleTime (e : CacheEntry ℕ) (now : ℚ)
    (hst : e.staleTime = none) (httl : 0 ≤ e.ttl) :
    ((statusOfEntry (some e) now = CacheStatus.fresh ↔
        now - e.timestamp ≤ e.ttl / 2) ∧
     (statusOfEntry (some e) now = CacheStatus.stale ↔
        e.ttl / 2 < now - e.timestamp ∧ now - e.timestamp ≤ e.ttl)) ∧
    (∀ (st : CMState ℕ) (key : String) (v : ℕ) (ttlS now2 : ℚ),
      (st.set key v ttlS none now2).mem key =
        some { data := v, timestamp := now2, ttl := ttlS * 1000, staleTime := none }) := by
  obtain ⟨hf, hs, _⟩ := statusOfEntry_iff e now
  rw [hst] at hf hs
  simp only [jsOrOpt] at hf hs
  refine ⟨⟨?_, hs⟩, ?_⟩
  · rw [hf]
    constructor
    · exact fun h => h.2
    · exact fun h => ⟨by linarith, h⟩
  · intro st key v ttlS now2
    simp [CMState.set, storeSet]

/-- Witness for C10: an entry with ttl 10000 ms and no staleTime at age
3000 ms ≤ 5000 ms = ttl/2 is fresh. -/
theorem getCacheStatus_default_staleTime_witness :
    statusOfEntry (some (⟨0, 0, 10000, none⟩ : CacheEntry ℕ)) 3000 = CacheStatus.fresh :=
  ((getCacheStatus_default_staleTime ⟨0, 0, 10000, none⟩ 3000
      rfl (by norm_num)).1.1).mpr (by norm_num)

/-- C3: whenever `getEntry` finds nothing, or finds an entry past its
effective max age, `getWithSWR` invokes the fetcher exactly once,
synchronously.  On success it stores the value in both tiers and
returns it with isStale = false and a null error; on failure with a
(now-expired) entry still present it returns that entry's data with
isStale = true and the error populated; on failure with no entry it
returns null data with the error populated — so fetch errors are
surfaced only when no usable stale data exists. -/
theorem getWithSWR_miss_or_expired (st : CMState ℕ) (key : String)
    (fetchR : Except String ℕ) (opt : SWROptions) (now : ℚ)
    (hmiss : ∀ e, (st.getEntry key).1 = some e →
      now - e.timestamp > jsOrQ e.ttl (opt.maxAge * 1000)) :
    ((st.getWithSWR key fetchR opt now).2.2 = 1) ∧
    (∀ d, fetchR = .ok d →
      (st.getWithSWR key fetchR opt now).1 =
        { data := some d, isStale := false, isValidating := false, error := none } ∧
      ((st.getWithSWR key fetchR opt now).2.1.mem key).map (fun e2 => e2.data) = some d ∧
      ((st.getWithSWR key fetchR opt now).2.1.kv key).map (fun e2 => e2.data) = some d) ∧
    (∀ err, fetchR = .error err →
      ((st.getEntry key).1 = none →
        (st.getWithSWR key fetchR opt now).1 =
          { data := none, isStale := false, isValidating := false, error := some err }) ∧
      (∀ e, (st.getEntry key).1 = some e →
        (st.getWithSWR key fetchR opt now).1 =
          { data := some e.data, isStale := true, isValidating := false,
            error := some err })) := by
  have hred : st.getWithSWR key fetchR opt now
      = fetchSync (st.getEntry key).2 key (st.getEntry key).1 fetchR opt now := by
    cases hE : (st.getEntry key).1 with
    | none => simp [CMState.getWithSWR, hE]
    | some e =>
      have hexp := hmiss e hE
      simp [CMState.getWithSWR, hE, hexp]
  rw [hred]
  refine ⟨?_, ?_, ?_⟩
  · cases fetchR with
    | ok d => rfl
    | error err => cases hE : (st.getEntry key).1 <;> simp [fetchSync, hE]
  · intro d hd
    subst hd
    exact ⟨rfl, by simp [fetchSync, CMState.set, storeSet], by simp [fetchSync, CMState.set, storeSet]⟩
  · intro err herr
    subst herr
    exact ⟨fun hnone => by rw [hnone]; exact rfl, fun e he => by rw [he]; exact rfl⟩

/-- Witness for C3: a wholly empty cache with a succeeding fetch (value
42) fetches once and returns 42 fresh with no error. -/
theorem getWithSWR_miss_or_expired_witness :
    ((CMState.getWithSWR (⟨fun _ => none, fun _ => none, fun _ => false⟩ : CMState ℕ) "k"
        (Except.ok 42 : Except String ℕ) ⟨3600, 1800⟩ 1000).2.2 = 1) ∧
    ((CMState.getWithSWR (⟨fun _ => none, fun _ => none, fun _ => false⟩ : CMState ℕ) "k"
        (Except.ok 42 : Except String ℕ) ⟨3600, 1800⟩ 1000).1 =
      { data := some 42, isStale := false, isValidating := false, error := none }) := by
  have h := getWithSWR_miss_or_expired ⟨fun _ => none, fun _ => none, fun _ => false⟩
    "k" (Except.ok 42) ⟨3600, 1800⟩ 1000
    (fun e he => by simp [CMState.getEntry] at he)
  exact ⟨h.1, (h.2.1 42 rfl).1⟩

/-- C6 counterexample: under key "k" the in-process tier holds an
expired entry (data 1, written at 0 with ttl 1 s) while the durable
tier holds a live entry (data 2, written at 1500 with ttl 10 s); at
now = 2000 the lookup `getWithSWR` actually performs (`getEntry`)
returns the expired in-process entry, whereas the two-tier rule the
claim describes — and `get` implements — yields the durable live entry;
with a failing fetch, `getWithSWR` therefore serves data 1 as stale
instead of the durable tier's live data 2. -/
theorem getEntry_not_two_tier_counterexample :
    ((CMState.getEntry
        (⟨fun k => if k = "k" then some ⟨1, 0, 1000, none⟩ else none,
          fun k => if k = "k" then some ⟨2, 1500, 10000, none⟩ else none,
          fun _ => false⟩ : CMState ℕ) "k").1 = some ⟨1, 0, 1000, none⟩) ∧
    ((claimTwoTierEntry
        (⟨fun k => if k = "k" then some ⟨1, 0, 1000, none⟩ else none,
          fun k => if k = "k" then some ⟨2, 1500, 10000, none⟩ else none,
          fun _ => false⟩ : CMState ℕ) "k" 2000).1 = some ⟨2, 1500, 10000, none⟩) ∧
    ((CMState.get
        (⟨fun k => if k = "k" then some ⟨1, 0, 1000, none⟩ else none,
          fun k => if k = "k" then some ⟨2, 1500, 10000, none⟩ else none,
          fun _ => false⟩ : CMState ℕ) "k" 2000).1 = some 2) ∧
    (CacheEntry.isExpired (⟨1, 0, 1000, none⟩ : CacheEntry ℕ) 2000 = true) ∧
    (CacheEntry.isExpired (⟨2, 1500, 10000, none⟩ : CacheEntry ℕ) 2000 = false) ∧
    ((CMState.getWithSWR
        (⟨fun k => if k = "k" then some ⟨1, 0, 1000, none⟩ else none,
          fun k => if k = "k" then some ⟨2, 1500, 10000, none⟩ else none,
          fun _ => false⟩ : CMState ℕ) "k" (Except.error "boom")
        ⟨3600, 1800⟩ 2000).1.data = some 1) ∧
    (some (1:ℕ) ≠ some 2) := by
  refine ⟨by simp [CMState.getEntry], ?_, ?_, ?_, ?_, ?_, by decide⟩
  · norm_num [claimTwoTierEntry, CacheEntry.isExpired]
  · norm_num [CMState.get, kvLookupLive, CacheEntry.isExpired]
  · norm_num [CacheEntry.isExpired]
  · norm_num [CacheEntry.isExpired]
  · norm_num [CMState.getWithSWR, CMState.getEntry, fetchSync, jsOrOpt, jsOrQ]

/-- C6 amended: `getWithSWR` reads through `getEntry`, not `get`:
`getEntry` returns the in-process entry whenever one is present — even
if expired — and consults the durable tier only on an in-process miss,
repopulating whatever it finds there with no liveness check.  `get`, by
contrast, does implement the claimed reconciliation: with an expired
in-process entry and a live durable entry, `get` returns the durable
entry's data. -/
theorem getEntry_mem_first (st : CMState ℕ) (key : String) (now : ℚ) :
    (∀ e, st.mem key = some e → (st.getEntry key).1 = some e) ∧
    (st.mem key = none →
      (st.getEntry key).1 = st.kv key ∧ (st.getEntry key).2.mem key = st.kv key) ∧
    (∀ e1 e2, st.mem key = some e1 → e1.isExpired now = true →
      st.kv key = some e2 → e2.isExpired now = false →
      (st.get key now).1 = some e2.data) := by
  refine ⟨?_, ?_, ?_⟩
  · intro e he
    simp [CMState.getEntry, he]
  · intro hnone
    cases hk : st.kv key <;> simp [CMState.getEntry, hnone, hk, storeSet]
  · intro e1 e2 h1 hexp1 h2 hexp2
    simp [CMState.get, h1, hexp1, kvLookupLive, h2, hexp2]

/-- Witness for C6 amended: at the counterexample's state, `get`
returns the durable tier's live data 2. -/
theorem getEntry_mem_first_witness :
    (CMState.get
        (⟨fun k => if k = "k" then some ⟨1, 0, 1000, none⟩ else none,
          fun k => if k = "k" then some ⟨2, 1500, 10000, none⟩ else none,
          fun _ => false⟩ : CMState ℕ) "k" 2000).1 = some 2 :=
  (getEntry_mem_first
      (⟨fun k => if k = "k" then some ⟨1, 0, 1000, none⟩ else none,
        fun k => if k = "k" then some ⟨2, 1500, 10000, none⟩ else none,
        fun _ => false⟩ : CMState ℕ) "k" 2000).2.2
    ⟨1, 0, 1000, none⟩ ⟨2, 1500, 10000, none⟩ rfl
    (by norm_num [CacheEntry.isExpired]) rfl (by norm_num [CacheEntry.isExpired])

theorem swrCallStart_stale_launch (key : String) (opt : SWROptions) (now : ℚ)
    (s : ConcState ℕ) (entry : CacheEntry ℕ)
    (hmem : s.cm.mem key = some entry)
    (hrev : s.cm.revalidating key = false)
    (hstale : now - entry.timestamp > jsOrOpt entry.staleTime (opt.staleTime * 1000))
    (hexp : ¬ (now - entry.timestamp > jsOrQ entry.ttl (opt.maxAge * 1000))) :
    swrCallStart (ε := String) key opt now s =
      (some { data := some entry.data, isStale := true, isValidating := true,
              error := none },
       { cm := { s.cm with
           revalidating := fun k => if k = key then true else s.cm.revalidating k },
         fetchCalls := s.fetchCalls + 1 }) := by
  simp [swrCallStart, CMState.getEntry, hmem, hstale, hexp, hrev]

theorem swrCallStart_stale_guarded (key : String) (opt : SWROptions) (now : ℚ)
    (s : ConcState ℕ) (entry : CacheEntry ℕ)
    (hmem : s.cm.mem key = some entry)
    (hrev : s.cm.revalidating key = true)
    (hstale : now - entry.timestamp > jsOrOpt entry.staleTime (opt.staleTime * 1000))
    (hexp : ¬ (now - entry.timestamp > jsOrQ entry.ttl (opt.maxAge * 1000))) :
    swrCallStart (ε := String) key opt now s =
      (some { data := some entry.data, isStale := true, isValidating := false,
              error := none }, s) := by
  simp [swrCallStart, CMState.getEntry, hmem, hstale, hexp, hrev]

theorem runCallers_guarded (key : String) (opt : SWROptions) (now : ℚ)
    (entry : CacheEntry ℕ)
    (hstale : now - entry.timestamp > jsOrOpt entry.staleTime (opt.staleTime * 1000))
    (hexp : ¬ (now - entry.timestamp > jsOrQ entry.ttl (opt.maxAge * 1000))) :
    ∀ (m : ℕ) (s : ConcState ℕ),
      s.cm.mem key = some entry → s.cm.revalidating key = true →
      runCallers (ε := String) key opt now m s =
        (List.replicate m
          (some { data := some entry.data, isStale := true,
                  isValidating := false, error := none }), s)
  | 0, s => fun _ _ => rfl
  | m + 1, s => fun hmem hrev => by
    have h1 := swrCallStart_stale_guarded key opt now s entry hmem hrev hstale hexp
    have h2 := runCallers_guarded key opt now entry hstale hexp m s hmem hrev
    simp [runCallers, h1, h2, List.replicate_succ]

/-- C4: with a stale but non-expired entry under the key and no
revalidation in flight, any number n ≥ 1 of concurrent `getWithSWR`
callers — each caller's pre-fetch stretch being one atomic event-loop
step, since the guard is checked and the key added to
`revalidatingKeys` with no intervening suspension point — issue exactly
one fetcher call in total, and every caller returns the stale cached
data synchronously (isStale = true, no error); only the first caller
reports isValidating. -/
theorem getWithSWR_single_flight (n : ℕ) (hn : 1 ≤ n) (st : CMState ℕ)
    (key : String) (entry : CacheEntry ℕ) (opt : SWROptions) (now : ℚ)
    (hmem : st.mem key = some entry) (hrev : st.revalidating key = false)
    (hstale : now - entry.timestamp > jsOrOpt entry.staleTime (opt.staleTime * 1000))
    (hexp : ¬ (now - entry.timestamp > jsOrQ entry.ttl (opt.maxAge * 1000))) :
    ((runCallers (ε := String) key opt now n ⟨st, 0⟩).2.fetchCalls = 1) ∧
    (∀ r ∈ (runCallers (ε := String) key opt now n ⟨st, 0⟩).1,
      ∃ b, r = some { data := some entry.data, isStale := true,
                      isValidating := b, error := none }) := by
  obtain ⟨m, rfl⟩ : ∃ m, n = m + 1 := ⟨n - 1, by omega⟩
  have h1 : swrCallStart (ε := String) key opt now ⟨st, 0⟩ =
      (some { data := some entry.data, isStale := true, isValidating := true,
              error := none },
       ⟨⟨st.mem, st.kv, fun k => if k = key then true else st.revalidating k⟩, 1⟩) :=
    swrCallStart_stale_launch key opt now ⟨st, 0⟩ entry hmem hrev hstale hexp
  have h2 := runCallers_guarded key opt now entry hstale hexp m
    ⟨⟨st.mem, st.kv, fun k => if k = key then true else st.revalidating k⟩, 1⟩
    hmem (by simp)
  have hstep : runCallers (ε := String) key opt now (m + 1) ⟨st, 0⟩ =
      ((swrCallStart key opt now ⟨st, 0⟩).1 ::
        (runCallers key opt now m ((swrCallStart (ε := String) key opt now ⟨st, 0⟩).2)).1,
       (runCallers key opt now m ((swrCallStart (ε := String) key opt now ⟨st, 0⟩).2)).2) :=
    rfl
  rw [hstep, h1]
  dsimp only
  rw [h2]
  constructor
  · rfl
  · intro r hr
    rcases List.mem_cons.mp hr with h | h
    · exact ⟨true, h⟩
    · exact ⟨false, List.eq_of_mem_replicate h⟩

/-- Witness for C4: three concurrent callers on a stale (age 2000 s of
an 1800 s stale window) but unexpired (ttl 3600 s) key trigger exactly
one fetch. -/
theorem getWithSWR_single_flight_witness :
    (runCallers (ε := String) "k" ⟨3600, 1800⟩ 2000000 3
      ⟨⟨fun k => if k = "k" then some ⟨7, 0, 3600000, none⟩ else none,
        fun _ => none, fun _ => false⟩, 0⟩).2.fetchCalls = 1 :=
  (getWithSWR_single_flight 3 (by norm_num)
    ⟨fun k => if k = "k" then some ⟨7, 0, 3600000, none⟩ else none,
      fun _ => none, fun _ => false⟩ "k" ⟨7, 0, 3600000, none⟩ ⟨3600, 1800⟩ 2000000
    rfl rfl (by norm_num [jsOrOpt]) (by norm_num [jsOrQ])).1

theorem insertByCmp_mem (cmp : α → α → ℤ) (x a : α) :
    ∀ l : List α, a ∈ insertByCmp cmp x l ↔ a = x ∨ a ∈ l
  | [] => by simp [insertByCmp]
  | y :: ys => by
    simp only [insertByCmp]
    split_ifs with h
    · simp only [List.mem_cons]
    · simp only [List.mem_cons, insertByCmp_mem cmp x a ys]
      tauto

theorem sortByCmp_mem (cmp : α → α → ℤ) (a : α) :
    ∀ l : List α, a ∈ sortByCmp cmp l ↔ a ∈ l
  | [] => Iff.rfl
  | x :: xs => by
    simp [sortByCmp, insertByCmp_mem, sortByCmp_mem cmp a xs]

theorem insertByCmp_pairwise (g : α → ℕ) (x : α) :
    ∀ l : List α, List.Pairwise (fun a b => g b ≤ g a) l →
      List.Pairwise (fun a b => g b ≤ g a)
        (insertByCmp (fun a b => (g b : ℤ) - (g a : ℤ)) x l)
  | [], _ => by simp [insertByCmp]
  | y :: ys, h => by
    simp only [insertByCmp]
    obtain ⟨hy, hys⟩ := List.pairwise_cons.mp h
    split_ifs with hc
    · have hyx : g y ≤ g x := by
        have : (g y : ℤ) ≤ (g x : ℤ) := by linarith
        exact_mod_cast this
      refine List.pairwise_cons.mpr ⟨?_, h⟩
      intro b hb
      rcases List.mem_cons.mp hb with rfl | hb
      · exact hyx
      · exact le_trans (hy b hb) hyx
    · have hxy : g x ≤ g y := by
        have : (0:ℤ) < (g y : ℤ) - (g x : ℤ) := by linarith [not_le.mp hc]
        exact_mod_cast le_of_lt (by linarith : (g x : ℤ) < (g y : ℤ))
      refine List.pairwise_cons.mpr ⟨?_, insertByCmp_pairwise g x ys hys⟩
      intro b hb
      rcases (insertByCmp_mem _ x b ys).mp hb with rfl | hb
      · exact hxy
      · exact hy b hb

theorem sortByCmp_pairwise (g : α → ℕ) :
    ∀ l : List α, List.Pairwise (fun a b => g b ≤ g a)
      (sortByCmp (fun a b => (g b : ℤ) - (g a : ℤ)) l)
  | [] => List.Pairwise.nil
  | x :: xs => insertByCmp_pairwise g x _ (sortByCmp_pairwise g xs)

theorem insertByCmp_filter_stable (g : α → ℕ) (s : ℕ) (x : α) :
    ∀ l : List α,
      (insertByCmp (fun a b => (g b : ℤ) - (g a : ℤ)) x l).filter (fun a => g a == s)
        = if g x == s then x :: l.filter (fun a => g a == s)
          else l.filter (fun a => g a == s)
  | [] => by
    cases hx : g x == s <;> simp [insertByCmp, List.filter, hx]
  | y :: ys => by
    have IH := insertByCmp_filter_stable g s x ys
    simp only [insertByCmp]
    by_cases hc : (g y : ℤ) - (g x : ℤ) ≤ 0
    · rw [if_pos hc]
      cases hx : g x == s <;> cases hy : g y == s <;>
        simp [List.filter_cons, hx, hy]
    · rw [if_neg hc]
      cases hy : g y == s
      · cases hx : g x == s <;> simp [List.filter_cons, hy, IH, hx]
      · have hys : g y = s := beq_iff_eq.mp hy
        have hxy : g x < g y := by
          have h2 : (0:ℤ) < (g y : ℤ) - (g x : ℤ) := by linarith [not_le.mp hc]
          have h3 : (g x : ℤ) < (g y : ℤ) := by linarith
          exact_mod_cast h3
        have hx : (g x == s) = false := by
          cases hxx : g x == s
          · rfl
          · exact absurd (beq_iff_eq.mp hxx) (by omega)
        simp [List.filter_cons, hy, IH, hx]

theorem sortByCmp_filter_stable (g : α → ℕ) (s : ℕ) :
    ∀ l : List α,
      (sortByCmp (fun a b => (g b : ℤ) - (g a : ℤ)) l).filter (fun a => g a == s)
        = l.filter (fun a => g a == s)
  | [] => rfl
  | x :: xs => by
    have IH := sortByCmp_filter_stable g s xs
    simp only [sortByCmp, insertByCmp_filter_stable, IH]
    cases hx : g x == s <;> simp [List.filter_cons, hx]

/-- C9 counterexample: the company ("a12b", ticker "12") under query
"12" scores 60 (name contains), because the code tests name-contains
before ticker-exact; the claimed best-rule-wins order would give 70. -/
theorem relevance_order_counterexample :
    calculateRelevanceScore ⟨"c1", "a12b", "12", ""⟩ "12" = 60 ∧
    claimScore ⟨"c1", "a12b", "12", ""⟩ "12" = 70 ∧
    (60 : ℕ) ≠ 70 := by decide

/-- C9 amended: scores are as claimed per rule, but the rules are tried
in the source's fixed order — name exact (100), name starts-with (80),
name contains (60), ticker exact (70), ticker starts-with (50), fuzzy
(40) — and the first match wins, so a company whose name merely
contains the query scores 60 even when its ticker equals the query
(not 70); zero scores are filtered out, results are sorted by
descending score and truncated to the limit, a query shorter than 2
characters yields no results, and ties keep the original registry
order (stable sort): for every score s ≠ 0, the output's companies
with score s form, in order, an initial segment of the registry's
companies with score s. -/
theorem search_scoring_amended :
    (∀ (c : Company) (q : String),
        jsToLower c.corpName ≠ q →
        strStartsWith (jsToLower c.corpName) q = false →
        strIncludes (jsToLower c.corpName) q = true →
        calculateRelevanceScore c q = 60) ∧
    (∀ (c : Company) (q : String),
        jsToLower c.corpName ≠ q →
        strStartsWith (jsToLower c.corpName) q = false →
        strIncludes (jsToLower c.corpName) q = false →
        jsToLower c.stockCode = q →
        calculateRelevanceScore c q = 70) ∧
    (∀ (cs : List Company) (q : String) (lim : ℕ), q.length < 2 →
        searchCompanies cs true q lim = []) ∧
    (∀ (cs : List Company) (q : String) (lim : ℕ),
        (searchCompanies cs true q lim).length ≤ lim ∧
        List.Pairwise (fun a b =>
          calculateRelevanceScore b (jsTrim (jsToLower q)) ≤
          calculateRelevanceScore a (jsTrim (jsToLower q)))
          (searchCompanies cs true q lim) ∧
        (∀ comp ∈ searchCompanies cs true q lim,
          0 < calculateRelevanceScore comp (jsTrim (jsToLower q)))) ∧
    (∀ (cs : List Company) (q : String) (lim : ℕ) (s : ℕ), s ≠ 0 →
        (searchCompanies cs true q lim).filter
          (fun c => calculateRelevanceScore c (jsTrim (jsToLower q)) == s) <+:
        cs.filter
          (fun c => calculateRelevanceScore c (jsTrim (jsToLower q)) == s)) := by
  refine ⟨?_, ?_, ?_, ?_, ?_⟩
  · intro c q h1 h2 h3
    simp [calculateRelevanceScore, h1, h2, h3]
  · intro c q h1 h2 h3 h4
    simp [calculateRelevanceScore, h1, h2, h3, h4]
  · intro cs q lim hq
    simp [searchCompanies, hq]
  · intro cs q lim
    by_cases hg : q.length < 2
    · simp [searchCompanies, hg]
    · simp only [searchCompanies]
      rw [if_neg (by simp [hg])]
      refine ⟨?_, ?_, ?_⟩
      · simp only [List.length_map, List.length_take]
        exact min_le_left _ _
      · rw [List.pairwise_map]
        refine List.Pairwise.sublist (List.take_sublist _ _) ?_
        refine List.Pairwise.imp_of_mem ?_
          (sortByCmp_pairwise (fun p : Company × ℕ => p.2) _)
        intro a b ha hb hr
        obtain ⟨ca, _, rfl⟩ :=
          List.mem_map.mp (List.mem_filter.mp ((sortByCmp_mem _ a _).mp ha)).1
        obtain ⟨cb, _, rfl⟩ :=
          List.mem_map.mp (List.mem_filter.mp ((sortByCmp_mem _ b _).mp hb)).1
        exact hr
      · intro comp hcomp
        obtain ⟨p, hpTake, rfl⟩ := List.mem_map.mp hcomp
        have hpScored := (sortByCmp_mem _ p _).mp (List.mem_of_mem_take hpTake)
        have h2 := List.mem_filter.mp hpScored
        obtain ⟨c, _, rfl⟩ := List.mem_map.mp h2.1
        simpa using of_decide_eq_true h2.2
  · intro cs q lim s hs
    by_cases hg : q.length < 2
    · have hempty : searchCompanies cs true q lim = [] := by simp [searchCompanies, hg]
      rw [hempty]
      exact List.nil_prefix
    · simp only [searchCompanies]
      rw [if_neg (by simp [hg])]
      rw [List.filter_map]
      have hcong : ((sortByCmp (fun a b => ((b.2 : ℤ) - (a.2 : ℤ)))
            ((cs.map (fun c => (c, calculateRelevanceScore c (jsTrim (jsToLower q))))).filter
              (fun item => item.2 > 0))).take lim).filter
            ((fun c => calculateRelevanceScore c (jsTrim (jsToLower q)) == s) ∘ (fun p => p.1))
          = ((sortByCmp (fun a b => ((b.2 : ℤ) - (a.2 : ℤ)))
            ((cs.map (fun c => (c, calculateRelevanceScore c (jsTrim (jsToLower q))))).filter
              (fun item => item.2 > 0))).take lim).filter (fun p => p.2 == s) := by
        apply List.filter_congr
        intro p hp
        obtain ⟨c, _, rfl⟩ := List.mem_map.mp
          (List.mem_filter.mp ((sortByCmp_mem _ p _).mp (List.mem_of_mem_take hp))).1
        rfl
      rw [hcong]
      have hpre : ((sortByCmp (fun a b => ((b.2 : ℤ) - (a.2 : ℤ)))
            ((cs.map (fun c => (c, calculateRelevanceScore c (jsTrim (jsToLower q))))).filter
              (fun item => item.2 > 0))).take lim).filter (fun p => p.2 == s) <+:
          (sortByCmp (fun a b => ((b.2 : ℤ) - (a.2 : ℤ)))
            ((cs.map (fun c => (c, calculateRelevanceScore c (jsTrim (jsToLower q))))).filter
              (fun item => item.2 > 0))).filter (fun p => p.2 == s) :=
        (List.take_prefix lim _).filter _
      have hstab : (sortByCmp (fun a b => ((b.2 : ℤ) - (a.2 : ℤ)))
            ((cs.map (fun c => (c, calculateRelevanceScore c (jsTrim (jsToLower q))))).filter
              (fun item => item.2 > 0))).filter (fun p => p.2 == s)
          = ((cs.map (fun c => (c, calculateRelevanceScore c (jsTrim (jsToLower q))))).filter
              (fun item => item.2 > 0)).filter (fun p => p.2 == s) :=
        sortByCmp_filter_stable (fun p : Company × ℕ => p.2) s _
      have hscored : ((cs.map (fun c => (c, calculateRelevanceScore c (jsTrim (jsToLower q))))).filter
              (fun item => item.2 > 0)).filter (fun p => p.2 == s)
          = (cs.filter (fun c => calculateRelevanceScore c (jsTrim (jsToLower q)) == s)).map
              (fun c => (c, calculateRelevanceScore c (jsTrim (jsToLower q)))) := by
        rw [List.filter_filter, List.filter_map]
        have hpred : ∀ c ∈ cs,
            (((fun p : Company × ℕ => p.2 == s && decide (p.2 > 0)) ∘
              (fun c => (c, calculateRelevanceScore c (jsTrim (jsToLower q))))) c)
              = (calculateRelevanceScore c (jsTrim (jsToLower q)) == s) := by
          intro c _
          simp only [Function.comp]
          by_cases h : calculateRelevanceScore c (jsTrim (jsToLower q)) = s
          · simp [h, Nat.pos_of_ne_zero hs]
          · simp [h]
        rw [List.filter_congr hpred]
      rw [hstab, hscored] at hpre
      have hmapid : ∀ (l : List Company),
          (l.map (fun c => (c, calculateRelevanceScore c (jsTrim (jsToLower q))))).map
            (fun p => p.1) = l := by
        intro l
        induction l with
        | nil => rfl
        | cons a t ih => simp [ih]
      have hfinal := hpre.map (fun p : Company × ℕ => p.1)
      rw [hmapid] at hfinal
      exact hfinal

/-- Witness for C9 amended: the name-contains company with matching
ticker scores 60 under query "12", a one-company search respects the
limit, and its score-60 output group is an initial segment of the
registry's score-60 companies. -/
theorem search_scoring_amended_witness :
    calculateRelevanceScore ⟨"c1", "a12b", "12", ""⟩ "12" = 60 ∧
    (searchCompanies [⟨"c1", "a12b", "12", ""⟩] true "12" 10).length ≤ 10 ∧
    ((searchCompanies [⟨"c1", "a12b", "12", ""⟩] true "12" 10).filter
        (fun c => calculateRelevanceScore c (jsTrim (jsToLower "12")) == 60) <+:
      List.filter
        (fun c => calculateRelevanceScore c (jsTrim (jsToLower "12")) == 60)
        [⟨"c1", "a12b", "12", ""⟩]) :=
  ⟨search_scoring_amended.1 ⟨"c1", "a12b", "12", ""⟩ "12"
      (by decide) (by decide) (by decide),
   (search_scoring_amended.2.2.2.1 [⟨"c1", "a12b", "12", ""⟩] "12" 10).1,
   search_scoring_amended.2.2.2.2 [⟨"c1", "a12b", "12", ""⟩] "12" 10 60 (by decide)⟩

end CompanyPerf
